import Mathlib

/-!
# Verification of the downloader storage layer

Shallow embedding of the repository's storage layer (`storage.go`) and of the
aggregation deserializer (`job/aggregation.go`).  The external key-value store
(Redis) is modelled as association lists of hashes and of lists; the store
commands used by the source (`HMSET`, `HGETALL`, `RPUSH`, `LPOP`, `DEL`) are
given their documented single-key semantics.
-/

namespace Downloader

/-! ## Association lists (the store keyspace) -/

/-- A Redis hash: field name to string value, in insertion order. -/
abbrev Hash := List (String × String)

/-- Look up the first binding of key `k`. -/
def lookupA {α : Type} : List (String × α) → String → Option α
  | [], _ => none
  | (k', v) :: rest, k => if k' = k then some v else lookupA rest k

/-- Set key `k` to `v`: replace the first binding, or append a new one. -/
def setA {α : Type} : List (String × α) → String → α → List (String × α)
  | [], k, v => [(k, v)]
  | (k', v') :: rest, k, v =>
    if k' = k then (k, v) :: rest else (k', v') :: setA rest k v

/-- Delete every binding of key `k` (Redis `DEL`). -/
def eraseA {α : Type} : List (String × α) → String → List (String × α)
  | [], _ => []
  | (k', v') :: rest, k =>
    if k' = k then eraseA rest k else (k', v') :: eraseA rest k

/-- The Redis keyspace visible to the storage layer: hash-valued keys and
list-valued keys. -/
structure Store where
  hashes : List (String × Hash)
  lists : List (String × List String)
deriving Repr, DecidableEq

def Store.lookupHash (st : Store) (k : String) : Option Hash :=
  lookupA st.hashes k

/-- `HGETALL`: a missing key reads as the empty hash. -/
def Store.getHash (st : Store) (k : String) : Hash :=
  (st.lookupHash k).getD []

/-- A missing list-valued key reads as the empty list. -/
def Store.getList (st : Store) (k : String) : List String :=
  (lookupA st.lists k).getD []

/-- `HSET key field value`. -/
def Store.hset (st : Store) (k f v : String) : Store :=
  { st with hashes := setA st.hashes k (setA (st.getHash k) f v) }

/-- `HMSET key map`: sets the given fields, preserving any other field of the
hash. -/
def Store.hmset (st : Store) (k : String) (m : List (String × String)) : Store :=
  m.foldl (fun s p => s.hset k p.1 p.2) st

/-- `RPUSH key value`: append at the tail, creating the list if missing. -/
def Store.rpush (st : Store) (k v : String) : Store :=
  { st with lists := setA st.lists k (st.getList k ++ [v]) }

/-- `DEL key`: remove the key from the keyspace. -/
def Store.del (st : Store) (k : String) : Store :=
  { hashes := eraseA st.hashes k, lists := eraseA st.lists k }

/-! ## Constants of `storage.go` -/

def aggrKeyPrefix : String := "aggr:"

def jobKeyPrefix : String := "jobs:"

def callbackQueue : String := "CallbackQueue"

def maxDownloadRetries : Int := 3

/-! ## Job states

Modelled from the spec: the `State` string type and its constants
(`job.go` is not among the provided sources; the spec lists the states
Pending, InProgress, Success, Failed, and the maintenance scripts compare
against the literal strings). -/

abbrev State := String

def StatePending : State := "Pending"

def StateInProgress : State := "InProgress"

def StateFailed : State := "Failed"

def StateSuccess : State := "Success"

/-- Modelled from the spec: the `Job` struct is not among the provided
sources (only its methods in `storage.go` and its tests are).  Its fields
follow the spec's store layout — `ID`, `URL`, `AggrID`, `DownloadState`,
`RetryCount`, `Meta`, `CallbackURL`, `CallbackCount`, `CallbackState`,
`Extra`, `UserAgent` — with `user_agent` also exercised by `job_test.go`.
Go `int` fields are modelled as `Int`. -/
structure Job where
  ID : String
  URL : String
  AggrID : String
  DownloadState : State
  RetryCount : Int
  Meta : String
  CallbackURL : String
  CallbackCount : Int
  CallbackState : State
  Extra : String
  UserAgent : String
deriving Repr, DecidableEq

/-- The Go zero value of `Job`. -/
def emptyJob : Job :=
  { ID := "", URL := "", AggrID := "", DownloadState := "", RetryCount := 0
    Meta := "", CallbackURL := "", CallbackCount := 0, CallbackState := ""
    Extra := "", UserAgent := "" }

/-- `Job.toMap`: the reflective struct-to-map conversion emits every struct
field, keyed by field name, in declaration order; integer values are
rendered as decimal strings by the store client. -/
def Job.toMap (j : Job) : Hash :=
  [("ID", j.ID), ("URL", j.URL), ("AggrID", j.AggrID),
   ("DownloadState", j.DownloadState), ("RetryCount", toString j.RetryCount),
   ("Meta", j.Meta), ("CallbackURL", j.CallbackURL),
   ("CallbackCount", toString j.CallbackCount),
   ("CallbackState", j.CallbackState), ("Extra", j.Extra),
   ("UserAgent", j.UserAgent)]

/-- `Job.Save`: `HMSET` the job map under the job id. -/
def Job.Save (j : Job) (st : Store) : Store :=
  st.hmset j.ID j.toMap

/-- Is `c` an ASCII decimal digit? -/
def isDigitChar (c : Char) : Bool :=
  decide (48 ≤ c.toNat) && decide (c.toNat ≤ 57)

/-- Accumulate a non-empty all-digit run into a number; any non-digit
character is a parse error. -/
def atoiDigits : List Char → Nat → Option Nat
  | [], acc => some acc
  | c :: cs, acc =>
    if isDigitChar c then atoiDigits cs (acc * 10 + (c.toNat - 48))
    else none

/-- `strconv.Atoi`: an optional sign followed by a non-empty digit run
(the word-size overflow of Go's `int` never occurs on the decimal strings
produced by `Job.toMap` in the claims under verification). -/
def atoi (s : String) : Option Int :=
  match s.toList with
  | [] => none
  | '-' :: [] => none
  | '-' :: c :: cs => (atoiDigits (c :: cs) 0).map (fun n => -(n : Int))
  | '+' :: [] => none
  | '+' :: c :: cs => (atoiDigits (c :: cs) 0).map (fun n => (n : Int))
  | cs => (atoiDigits cs 0).map (fun n => (n : Int))

/-- The loop body of `jobFromMap`: fold the field bindings into a `Job`,
rejecting any field name the switch does not know. -/
def jobFromMapLoop : List (String × String) → Job → Except String Job
  | [], j => .ok j
  | (k, v) :: rest, j =>
    if k = "ID" then jobFromMapLoop rest { j with ID := v }
    else if k = "URL" then jobFromMapLoop rest { j with URL := v }
    else if k = "AggrID" then jobFromMapLoop rest { j with AggrID := v }
    else if k = "DownloadState" then
      jobFromMapLoop rest { j with DownloadState := v }
    else if k = "RetryCount" then
      match atoi v with
      | some n => jobFromMapLoop rest { j with RetryCount := n }
      | none => .error "Could not decode struct from map"
    else if k = "Meta" then jobFromMapLoop rest { j with Meta := v }
    else if k = "CallbackURL" then jobFromMapLoop rest { j with CallbackURL := v }
    else if k = "CallbackCount" then
      match atoi v with
      | some n => jobFromMapLoop rest { j with CallbackCount := n }
      | none => .error "Could not decode struct from map"
    else if k = "CallbackState" then
      jobFromMapLoop rest { j with CallbackState := v }
    else if k = "Extra" then jobFromMapLoop rest { j with Extra := v }
    else .error ("Field " ++ k ++ " with value " ++ v ++
      " was not found in Job struct")

/-- `jobFromMap`: decode a job record from a stored hash. -/
def jobFromMap (m : List (String × String)) : Except String Job :=
  jobFromMapLoop m emptyJob

/-- `GetJob`: `HGETALL` on the job id, decoded by `jobFromMap`. -/
def GetJob (st : Store) (id : String) : Except String Job :=
  jobFromMap (st.getHash id)

/-- `Job.SetState`: set the download state, overwrite `Meta` with the
newline-join of the variadic `meta` arguments, and save. -/
def Job.SetState (j : Job) (st : Store) (state : State) (meta : List String) :
    Job × Store :=
  let j' : Job := { j with DownloadState := state
                           Meta := String.intercalate "\n" meta }
  (j', j'.Save st)

/-- `Job.SetCallbackState`: set the callback state, overwrite `Meta` with the
newline-join of the variadic `meta` arguments, and save. -/
def Job.SetCallbackState (j : Job) (st : Store) (state : State)
    (meta : List String) : Job × Store :=
  let j' : Job := { j with CallbackState := state
                           Meta := String.intercalate "\n" meta }
  (j', j'.Save st)

/-- `Job.QueuePendingDownload`: set DownloadState to Pending, save, and
`RPUSH` the job id onto its aggregation's pending-download list. -/
def Job.QueuePendingDownload (j : Job) (st : Store) : Job × Store :=
  let j' : Job := { j with DownloadState := StatePending }
  let st' := j'.Save st
  (j', st'.rpush (jobKeyPrefix ++ j'.AggrID) j'.ID)

/-- `Job.QueuePendingCallback`: set CallbackState to Pending, save, and
`RPUSH` the job id onto the global callback queue. -/
def Job.QueuePendingCallback (j : Job) (st : Store) : Job × Store :=
  let j' : Job := { j with CallbackState := StatePending }
  let st' := j'.Save st
  (j', st'.rpush callbackQueue j'.ID)

/-- Modelled from the spec: `Job.RetryOrFail` is called by `Perform` in
`storage.go` but its definition is not among the provided sources.  Per the
spec: if `RetryCount < maxDownloadRetries` it increments `RetryCount` and
requeues for download (`QueuePendingDownload` in the source); otherwise it
sets DownloadState=Failed with `meta` and enqueues for callback. -/
def Job.RetryOrFail (j : Job) (st : Store) (meta : String) : Job × Store :=
  if j.RetryCount < maxDownloadRetries then
    Job.QueuePendingDownload { j with RetryCount := j.RetryCount + 1 } st
  else
    let r := j.SetState st StateFailed [meta]
    Job.QueuePendingCallback r.1 r.2

/-! ## The download attempt (`Job.Perform`) -/

/-- `strings.Contains`, character by character on the underlying lists:
does `s` begin with `pat`? -/
def leadsWith : List Char → List Char → Bool
  | [], _ => true
  | _ :: _, [] => false
  | a :: as, b :: bs => a == b && leadsWith as bs

/-- Does `pat` occur as a contiguous run inside `s`? -/
def hasSub : List Char → List Char → Bool
  | pat, [] => pat.isEmpty
  | pat, b :: rest => leadsWith pat (b :: rest) || hasSub pat rest

/-- `strings.Contains(s, pat)`. -/
def strContains (s pat : String) : Bool :=
  hasSub pat.toList s.toList

/-- The observable outcome of the I/O performed by one download attempt:
file creation, request construction, the HTTP round trip (`client.Do`,
whose error text is inspected by the source), and the body copy. -/
inductive HttpOutcome where
  | createFail (msg : String)
  | reqFail (msg : String)
  | doErr (msg : String)
  | resp (statusCode : Int) (status : String) (copyErr : Option String)
deriving Repr, DecidableEq

/-- `Job.Perform`: one download attempt, mirroring the outcome
classification of `storage.go`. -/
def Job.Perform (j : Job) (st : Store) (o : HttpOutcome) : Job × Store :=
  let r0 := j.SetState st StateInProgress []
  let j0 := r0.1
  let st0 := r0.2
  match o with
  | .createFail m => j0.RetryOrFail st0 ("Could not write to file, " ++ m)
  | .reqFail m => j0.RetryOrFail st0 ("Could not create request, " ++ m)
  | .doErr m =>
    if strContains m "x509" || strContains m "tls" then
      j0.SetState st0 StateFailed ["TLS Error occured, " ++ m]
    else
      j0.RetryOrFail st0 m
  | .resp code status copyErr =>
    if 500 ≤ code then
      j0.RetryOrFail st0 ("Received status code " ++ status)
    else if 400 ≤ code then
      j0.SetState st0 StateFailed ["Received Status Code " ++ toString code]
    else
      match copyErr with
      | some m => j0.RetryOrFail st0 ("Could not download file, " ++ m)
      | none =>
        let r1 := j0.SetState st0 StateSuccess []
        Job.QueuePendingCallback r1.1 r1.2

/-! ## Aggregations -/

/-- The `Aggregation` struct of `job/aggregation.go`. -/
structure Aggregation where
  ID : String
  Limit : Int
  Proxy : String
  Timeout : Int
deriving Repr, DecidableEq

/-- `Aggregation.RedisKey`: the metadata key `aggr:<id>`. -/
def Aggregation.RedisKey (aggr : Aggregation) : String :=
  aggrKeyPrefix ++ aggr.ID

/-- `Aggregation.RedisJobsKey`: the pending-download list key `jobs:<id>`. -/
def Aggregation.RedisJobsKey (aggr : Aggregation) : String :=
  jobKeyPrefix ++ aggr.ID

/-- `Aggregation.Remove`: `DEL` the metadata key only. -/
def Aggregation.Remove (aggr : Aggregation) (st : Store) : Store :=
  st.del aggr.RedisKey

/-! ## Popping from the queues -/

/-- The error text of the go-redis sentinel returned by `LPOP` on a missing
or empty list. -/
def redisNilMsg : String := "redis: nil"

/-- A go-redis string command result: an optional error and a value. -/
structure StrCmd where
  err : Option String
  val : String
deriving Repr, DecidableEq

/-- `LPOP key` as observed through a `StringCmd`.  `fault` injects a
transport error (its message), in which case the store is untouched;
without a fault the command follows Redis semantics: the nil sentinel on a
missing or empty list, otherwise the head is removed and returned. -/
def Store.lpopCmd (st : Store) (k : String) (fault : Option String) :
    StrCmd × Store :=
  match fault with
  | some m => ({ err := some m, val := "" }, st)
  | none =>
    match st.getList k with
    | [] => ({ err := some redisNilMsg, val := "" }, st)
    | v :: rest => ({ err := none, val := v },
        { st with lists := setA st.lists k rest })

/-- The error type of the pop operations: the distinguished
`QueueEmptyError` sentinel (carrying the queue name), or any other error. -/
inductive PopError where
  | queueEmpty (q : String)
  | other (m : String)
deriving Repr, DecidableEq

/-- `PopCallback`: `LPOP` on the global callback queue; a non-nil,
non-sentinel command error is wrapped and propagated, the nil sentinel
becomes `QueueEmptyError`, and a popped id is resolved through `GetJob`. -/
def PopCallback (st : Store) (fault : Option String) :
    Except PopError Job × Store :=
  let r := st.lpopCmd callbackQueue fault
  match r.1.err with
  | some e =>
    if e ≠ redisNilMsg then
      (.error (.other ("Could not pop from redis queue: " ++ e)), r.2)
    else
      (.error (.queueEmpty callbackQueue), r.2)
  | none =>
    (match GetJob r.2 r.1.val with
     | .ok j => .ok j
     | .error m => .error (.other m), r.2)

/-- `Aggregation.PopJob`: `LPOP` on the aggregation's pending-download
list, with the same error dispatch as `PopCallback`. -/
def Aggregation.PopJob (aggr : Aggregation) (st : Store)
    (fault : Option String) : Except PopError Job × Store :=
  let r := st.lpopCmd aggr.RedisJobsKey fault
  match r.1.err with
  | some e =>
    if e ≠ redisNilMsg then
      (.error (.other ("Could not pop from redis queue: " ++ e)), r.2)
    else
      (.error (.queueEmpty aggr.RedisJobsKey), r.2)
  | none =>
    (match GetJob r.2 r.1.val with
     | .ok j => .ok j
     | .error m => .error (.other m), r.2)

/-! ## `Aggregation.UnmarshalJSON` -/

/-- A parsed JSON value, as it appears in Go's `map[string]interface{}`:
`null` is the nil interface, numbers are `float64` (modelled here as
integers — every numeric value the claims quantify over is an integer),
strings are `string`, and `other` stands for values of any further shape
(booleans, arrays, nested objects), which never satisfy the string or
number type assertions of the source. -/
inductive JVal where
  | jnull
  | jnum (n : Int)
  | jstr (s : String)
  | jother
deriving Repr, DecidableEq

/-- Map indexing `tmp[k]`. -/
def jlookup (tmp : List (String × JVal)) (k : String) : Option JVal :=
  lookupA tmp k

/-- `defaultTimeout` of `job/aggregation.go`. -/
def defaultTimeout : Int := 10

/-- `Aggregation.UnmarshalJSON`, after `json.Unmarshal` has produced the
map `tmp`.  `parseRequestURIok` abstracts the Go standard library's
`url.ParseRequestURI` success predicate, which the claims do not depend on.
The source declares `var timeout int` (zero value 0) and, in the branch
where `aggr_timeout` is present and numeric, assigns `timeout :=
int(timeoutf)` — a new, shadowing variable — so the outer variable that is
finally stored in `a.Timeout` is still 0 there; the embedding reproduces
this faithfully via `timeoutOuter` and `timeoutInner`. -/
def Aggregation.unmarshalJSON (parseRequestURIok : String → Bool)
    (tmp : List (String × JVal)) (a : Aggregation) :
    Except String Aggregation :=
  match jlookup tmp "aggr_id" with
  | some (.jstr id) =>
    if id = "" then .error "Aggregation ID cannot be empty"
    else
      match jlookup tmp "aggr_limit" with
      | some (.jnum limit) =>
        if limit ≤ 0 then .error "Aggregation limit must be greater than 0"
        else
          let proxy : String :=
            match jlookup tmp "aggr_proxy" with
            | some (.jstr s) => s
            | _ => ""
          let proxyIsStr : Bool :=
            match jlookup tmp "aggr_proxy" with
            | some (.jstr _) => true
            | _ => false
          if proxyIsStr && proxy ≠ "" && !(parseRequestURIok proxy) then
            .error "Aggregation proxy must be valid"
          else
            let timeoutOuter : Int := 0
            match jlookup tmp "aggr_timeout" with
            | none =>
              .ok { a with ID := id, Limit := limit, Proxy := proxy
                           Timeout := defaultTimeout }
            | some timeoutS =>
              match timeoutS with
              | .jnum timeoutf =>
                let timeoutInner : Int := timeoutf
                if timeoutInner ≤ 0 then
                  .error "Aggregation timeout must be greater than 0"
                else
                  .ok { a with ID := id, Limit := limit, Proxy := proxy
                               Timeout := timeoutOuter }
              | _ => .error "Aggregation timeout must be a number"
      | some _ => .error "Aggregation limit must be a number"
      | none => .error "Aggregation limit must be a number"
  | some _ => .error "Aggregation ID must be a string"
  | none => .error "Aggregation ID must be a string"

/-! ## Auxiliary definitions used by the statements -/

/-- Fold a field map into a hash, one `HSET` at a time (the effect of
`HMSET` on the hash stored at one key). -/
def writeFields (h : Hash) (m : List (String × String)) : Hash :=
  m.foldl (fun h p => setA h p.1 p.2) h

/-- Is an `Except` value an error? -/
def exceptIsError {ε α : Type} : Except ε α → Bool
  | .error _ => true
  | .ok _ => false

/-- Outcomes the source classifies as terminal failures without retry:
a `client.Do` error whose text mentions x509 or tls, and HTTP 4xx. -/
def terminalFailOutcome : HttpOutcome → Bool
  | .doErr m => strContains m "x509" || strContains m "tls"
  | .resp code _ _ => decide (400 ≤ code ∧ code < 500)
  | _ => false

/-- The `Meta` text the source records on a terminal failure. -/
def terminalFailMeta : HttpOutcome → String
  | .doErr m => "TLS Error occured, " ++ m
  | .resp code _ _ => "Received Status Code " ++ toString code
  | _ => ""

/-- An `aggr_timeout` value the spec classifies as invalid: null, not a
number, or a number that is at most 0. -/
def badTimeoutVal : JVal → Bool
  | .jnum t => decide (t ≤ 0)
  | _ => true

/-- A concrete job used by the concrete evaluations. -/
def sampleJob : Job :=
  { ID := "job-1", URL := "http://example.com/f", AggrID := "a1"
    DownloadState := "Pending", RetryCount := 0, Meta := ""
    CallbackURL := "http://cb.example.com", CallbackCount := 0
    CallbackState := "", Extra := "", UserAgent := "" }

/-- A second concrete job with a non-empty `UserAgent`. -/
def sampleJob2 : Job :=
  { ID := "j2", URL := "http://example.com/a", AggrID := "ag"
    DownloadState := "Pending", RetryCount := 0, Meta := ""
    CallbackURL := "http://cb.example.com", CallbackCount := 0
    CallbackState := "Pending", Extra := "x", UserAgent := "UA-1" }

/-- The empty store. -/
def emptyStore : Store := { hashes := [], lists := [] }

/-- The zero aggregation receiver (`new(Aggregation)`). -/
def sampleAggr0 : Aggregation := { ID := "", Limit := 0, Proxy := "", Timeout := 0 }

/-- A concrete aggregation. -/
def sampleAggr1 : Aggregation := { ID := "a1", Limit := 2, Proxy := "", Timeout := 10 }

/-- A concrete store holding an aggregation record, a job record and a
pending-download list. -/
def sampleStoreW : Store :=
  { hashes := [("aggr:a1", [("Limit", "2")]), ("j1", [("ID", "j1")])]
    lists := [("jobs:a1", ["j1"])] }

/-! ## Helper lemmas about the store -/

theorem lookupA_setA_self {α : Type} (l : List (String × α)) (k : String)
    (v : α) : lookupA (setA l k v) k = some v := by
  induction l with
  | nil => simp [setA, lookupA]
  | cons p rest ih =>
    obtain ⟨k', v'⟩ := p
    by_cases h : k' = k
    · simp [setA, h, lookupA]
    · simp [setA, h, lookupA, ih]

theorem lookupA_setA_ne {α : Type} (l : List (String × α)) (k k' : String)
    (v : α) (h : k' ≠ k) : lookupA (setA l k v) k' = lookupA l k' := by
  induction l with
  | nil => simp [setA, lookupA, Ne.symm h]
  | cons p rest ih =>
    obtain ⟨k₀, v₀⟩ := p
    by_cases h0 : k₀ = k
    · subst h0
      simp [setA, lookupA, Ne.symm h]
    · simp [setA, h0, lookupA, ih]

theorem lookupA_eraseA_self {α : Type} (l : List (String × α)) (k : String) :
    lookupA (eraseA l k) k = none := by
  induction l with
  | nil => rfl
  | cons p rest ih =>
    obtain ⟨k₀, v₀⟩ := p
    by_cases h0 : k₀ = k
    · simp [eraseA, h0, ih]
    · simp [eraseA, h0, lookupA, ih]

theorem lookupA_eraseA_ne {α : Type} (l : List (String × α)) (k k' : String)
    (h : k' ≠ k) : lookupA (eraseA l k) k' = lookupA l k' := by
  induction l with
  | nil => rfl
  | cons p rest ih =>
    obtain ⟨k₀, v₀⟩ := p
    by_cases h0 : k₀ = k
    · subst h0
      simp [eraseA, lookupA, Ne.symm h, ih]
    · simp [eraseA, h0, lookupA, ih]

theorem hmset_lists (st : Store) (k : String) (m : List (String × String)) :
    (st.hmset k m).lists = st.lists := by
  induction m generalizing st with
  | nil => rfl
  | cons p rest ih =>
    show (Store.hmset (st.hset k p.1 p.2) k rest).lists = st.lists
    rw [ih]
    rfl

theorem save_lists (j : Job) (st : Store) : (j.Save st).lists = st.lists :=
  hmset_lists st j.ID j.toMap

theorem getList_save (j : Job) (st : Store) (q : String) :
    (j.Save st).getList q = st.getList q := by
  simp [Store.getList, save_lists]

theorem getList_rpush_self (st : Store) (k v : String) :
    (st.rpush k v).getList k = st.getList k ++ [v] := by
  simp [Store.rpush, Store.getList, lookupA_setA_self]

theorem getList_rpush_ne (st : Store) (k k' v : String) (h : k' ≠ k) :
    (st.rpush k v).getList k' = st.getList k' := by
  simp [Store.rpush, Store.getList, lookupA_setA_ne _ _ _ _ h]

theorem getHash_rpush (st : Store) (k v q : String) :
    (st.rpush k v).getHash q = st.getHash q := rfl

theorem getHash_hset_self (st : Store) (k f v : String) :
    (st.hset k f v).getHash k = setA (st.getHash k) f v := by
  simp [Store.hset, Store.getHash, Store.lookupHash, lookupA_setA_self]

theorem getHash_hmset_self (st : Store) (k : String)
    (m : List (String × String)) :
    (st.hmset k m).getHash k = writeFields (st.getHash k) m := by
  induction m generalizing st with
  | nil => rfl
  | cons p rest ih =>
    show (Store.hmset (st.hset k p.1 p.2) k rest).getHash k =
      writeFields (setA (st.getHash k) p.1 p.2) rest
    rw [ih, getHash_hset_self]

theorem getHash_save_self (j : Job) (st : Store) :
    (j.Save st).getHash j.ID = writeFields (st.getHash j.ID) j.toMap :=
  getHash_hmset_self st j.ID j.toMap

theorem getHash_save_fresh (j : Job) (st : Store)
    (h : st.lookupHash j.ID = none) : (j.Save st).getHash j.ID = j.toMap := by
  rw [getHash_save_self]
  have h2 : st.getHash j.ID = [] := by simp [Store.getHash, h]
  rw [h2]
  rfl

theorem getHash_save_after (st : Store) (j₁ j₂ : Job)
    (h : st.getHash j₂.ID = j₁.toMap) :
    (j₂.Save st).getHash j₂.ID = j₂.toMap := by
  rw [getHash_save_self, h]
  rfl

theorem intercalate_single (s x : String) : String.intercalate s [x] = x := by
  simp [String.intercalate, String.intercalate.go]

theorem string_data_append (a b : String) : (a ++ b).data = a.data ++ b.data := by
  obtain ⟨la⟩ := a
  obtain ⟨lb⟩ := b
  rfl

theorem jobsKey_ne_aggrKey (x y : String) :
    jobKeyPrefix ++ x ≠ aggrKeyPrefix ++ y := by
  intro h
  have h2 := congrArg String.data h
  rw [string_data_append, string_data_append] at h2
  have e1 : String.data jobKeyPrefix = 'j' :: String.data "obs:" := rfl
  have e2 : String.data aggrKeyPrefix = 'a' :: String.data "ggr:" := rfl
  rw [e1, e2] at h2
  simp at h2

theorem lookupA_writeFields_meta (h : Hash) (j : Job) :
    lookupA (writeFields h j.toMap) "Meta" = some j.Meta := by
  simp only [writeFields, Job.toMap, List.foldl]
  rw [lookupA_setA_ne _ _ _ _ (by decide), lookupA_setA_ne _ _ _ _ (by decide),
    lookupA_setA_ne _ _ _ _ (by decide), lookupA_setA_ne _ _ _ _ (by decide),
    lookupA_setA_ne _ _ _ _ (by decide), lookupA_setA_self]

/-! ## The claims -/

/-- Claim C10: `SetState` and `SetCallbackState` unconditionally overwrite
`Meta` with the newline-join of the `meta` arguments; with no `meta`
argument the field — in memory and in the saved record — is reset to the
empty string, so a callback-state transition erases a previously recorded
download error text. -/
theorem setState_overwrites_meta (j : Job) (st : Store) (s : State)
    (meta : List String) :
    ((j.SetState st s meta).1.Meta = String.intercalate "\n" meta)
  ∧ ((j.SetCallbackState st s meta).1.Meta = String.intercalate "\n" meta)
  ∧ ((j.SetState st s []).1.Meta = "")
  ∧ ((j.SetCallbackState st s []).1.Meta = "")
  ∧ ((j.SetCallbackState st s []).1.CallbackState = s)
  ∧ (lookupA ((j.SetCallbackState st s []).2.getHash j.ID) "Meta" = some "") := by
  refine ⟨rfl, rfl, rfl, rfl, rfl, ?_⟩
  show lookupA ((Job.Save _ st).getHash j.ID) "Meta" = some ""
  rw [show j.ID = ({ j with CallbackState := s, Meta := "" } : Job).ID from rfl,
    getHash_save_self, lookupA_writeFields_meta]
  rfl

/-- Claim C7 (counterexample): on an id with no job record, `GetJob`
silently returns the zero-valued `Job` with no error — there is no
distinguishable not-found outcome. -/
theorem getJob_missing_silently_ok :
    GetJob emptyStore "nosuchjob" = .ok emptyJob := rfl

/-- Claim C7 (amended): for every id with no job record in the store,
`GetJob` returns the zero-valued `Job` with no error (`HGETALL` yields an
empty map, which `jobFromMap` decodes to the zero job). -/
theorem getJob_missing_returns_zero (st : Store) (id : String)
    (h : st.lookupHash id = none) : GetJob st id = .ok emptyJob := by
  simp [GetJob, Store.getHash, h, jobFromMap, jobFromMapLoop]

/-- Witness for `getJob_missing_returns_zero`. -/
theorem getJob_missing_returns_zero_witness :
    emptyStore.lookupHash "missing" = none
  ∧ GetJob emptyStore "missing" = .ok emptyJob :=
  ⟨rfl, getJob_missing_returns_zero emptyStore "missing" rfl⟩

/-- Claim C2 (code evaluated at the failing input): `Save` writes the
`UserAgent` field which `jobFromMap` rejects as unknown, so `GetJob` after
`Save` returns an error instead of the saved job. -/
theorem save_then_getJob_rejects_userAgent :
    GetJob (sampleJob2.Save emptyStore) "j2" =
      .error "Field UserAgent with value UA-1 was not found in Job struct" := by
  rfl

/-- Claim C3 (code evaluated at the failing input): with `aggr_timeout`
present and equal to 12, the decoded `Timeout` is 0 — the inner shadowed
`timeout` variable swallows the value — while an absent `aggr_timeout`
yields the default 10. -/
theorem unmarshal_timeout_shadowing :
    (Aggregation.unmarshalJSON (fun _ => true)
       [("aggr_id", .jstr "foo"), ("aggr_limit", .jnum 4),
        ("aggr_timeout", .jnum 12)] sampleAggr0 =
      .ok { ID := "foo", Limit := 4, Proxy := "", Timeout := 0 })
  ∧ (Aggregation.unmarshalJSON (fun _ => true)
       [("aggr_id", .jstr "foo"), ("aggr_limit", .jnum 4)] sampleAggr0 =
      .ok { ID := "foo", Limit := 4, Proxy := "", Timeout := 10 }) :=
  ⟨rfl, rfl⟩

/-- Claim C1 (code evaluated at the failing input): on an HTTP 404 and on
an x509 transport error, `Perform` leaves the job in DownloadState=Failed
but does not append the job id to the callback queue and does not set
CallbackState=Pending; on the success path it does both. -/
theorem perform_404_tls_skip_callback_enqueue :
    ((sampleJob.Perform emptyStore (.resp 404 "404 Not Found" none)).1.DownloadState
       = StateFailed)
  ∧ ((sampleJob.Perform emptyStore (.resp 404 "404 Not Found" none)).1.CallbackState
       ≠ StatePending)
  ∧ ((sampleJob.Perform emptyStore (.resp 404 "404 Not Found" none)).2.getList
       callbackQueue = [])
  ∧ ((sampleJob.Perform emptyStore
       (.doErr "x509: certificate signed by unknown authority")).1.DownloadState
       = StateFailed)
  ∧ ((sampleJob.Perform emptyStore
       (.doErr "x509: certificate signed by unknown authority")).2.getList
       callbackQueue = [])
  ∧ ((sampleJob.Perform emptyStore (.resp 200 "200 OK" none)).1.CallbackState
       = StatePending)
  ∧ ((sampleJob.Perform emptyStore (.resp 200 "200 OK" none)).2.getList
       callbackQueue = ["job-1"]) :=
  ⟨rfl, by decide, rfl, rfl, rfl, rfl, rfl⟩

/-- Claim C5: for every download attempt whose outcome is an HTTP 4xx
response or a transport error mentioning x509/tls, `Perform` sets
DownloadState=Failed with the error recorded in `Meta`, leaves
`RetryCount` unchanged, and touches no list — no retry and no re-enqueue
on the pending-download list. -/
theorem perform_terminal_failure_no_retry (j : Job) (st : Store)
    (o : HttpOutcome) (h : terminalFailOutcome o = true) :
    ((j.Perform st o).1.DownloadState = StateFailed)
  ∧ ((j.Perform st o).1.Meta = terminalFailMeta o)
  ∧ ((j.Perform st o).1.RetryCount = j.RetryCount)
  ∧ ((j.Perform st o).2.lists = st.lists) := by
  cases o with
  | createFail m => simp [terminalFailOutcome] at h
  | reqFail m => simp [terminalFailOutcome] at h
  | doErr m =>
    have hc : (strContains m "x509" || strContains m "tls") = true := by
      simpa [terminalFailOutcome] using h
    simp [Job.Perform, hc, Job.SetState, terminalFailMeta, intercalate_single,
      save_lists]
  | resp code status copyErr =>
    have hcode : 400 ≤ code ∧ code < 500 := by
      have := h
      simp only [terminalFailOutcome, decide_eq_true_eq] at this
      exact this
    have h5 : ¬ (500 ≤ code) := by omega
    have h4 : 400 ≤ code := hcode.1
    simp [Job.Perform, h5, h4, Job.SetState, terminalFailMeta,
      intercalate_single, save_lists]

/-- Witness for `perform_terminal_failure_no_retry`. -/
theorem perform_terminal_failure_no_retry_witness :
    terminalFailOutcome (.resp 404 "404 Not Found" none) = true
  ∧ (((sampleJob.Perform emptyStore (.resp 404 "404 Not Found" none)).1.DownloadState
        = StateFailed)
     ∧ ((sampleJob.Perform emptyStore (.resp 404 "404 Not Found" none)).1.Meta
        = terminalFailMeta (.resp 404 "404 Not Found" none))
     ∧ ((sampleJob.Perform emptyStore (.resp 404 "404 Not Found" none)).1.RetryCount
        = sampleJob.RetryCount)
     ∧ ((sampleJob.Perform emptyStore (.resp 404 "404 Not Found" none)).2.lists
        = emptyStore.lists)) :=
  ⟨by decide,
   perform_terminal_failure_no_retry sampleJob emptyStore
     (.resp 404 "404 Not Found" none) (by decide)⟩

theorem queuePendingDownload_spec (j : Job) (st : Store)
    (hfresh : st.lookupHash j.ID = none) :
    ((j.QueuePendingDownload st).1 = { j with DownloadState := StatePending })
  ∧ ((j.QueuePendingDownload st).2.getHash j.ID =
      Job.toMap { j with DownloadState := StatePending })
  ∧ ((j.QueuePendingDownload st).2.getList (jobKeyPrefix ++ j.AggrID) =
      st.getList (jobKeyPrefix ++ j.AggrID) ++ [j.ID]) := by
  refine ⟨rfl, ?_, ?_⟩
  · show (Store.rpush (Job.Save { j with DownloadState := StatePending } st)
      (jobKeyPrefix ++ j.AggrID) j.ID).getHash j.ID = _
    rw [getHash_rpush]
    exact getHash_save_fresh { j with DownloadState := StatePending } st hfresh
  · show (Store.rpush (Job.Save { j with DownloadState := StatePending } st)
      (jobKeyPrefix ++ j.AggrID) j.ID).getList (jobKeyPrefix ++ j.AggrID) = _
    rw [getList_rpush_self, getList_save]

theorem queuePendingCallback_spec (j j₀ : Job) (st : Store)
    (h : st.getHash j.ID = j₀.toMap) :
    ((j.QueuePendingCallback st).1 = { j with CallbackState := StatePending })
  ∧ ((j.QueuePendingCallback st).2.getHash j.ID =
      Job.toMap { j with CallbackState := StatePending })
  ∧ ((j.QueuePendingCallback st).2.getList callbackQueue =
      st.getList callbackQueue ++ [j.ID]) := by
  refine ⟨rfl, ?_, ?_⟩
  · show (Store.rpush (Job.Save { j with CallbackState := StatePending } st)
      callbackQueue j.ID).getHash j.ID = _
    rw [getHash_rpush]
    exact getHash_save_after st j₀ { j with CallbackState := StatePending } h
  · show (Store.rpush (Job.Save { j with CallbackState := StatePending } st)
      callbackQueue j.ID).getList callbackQueue = _
    rw [getList_rpush_self, getList_save]

/-- Claim C4: `RetryOrFail` with `RetryCount < maxDownloadRetries` (= 3)
increments `RetryCount`, resets DownloadState to Pending, persists the job
record, and appends the job id at the tail of the aggregation's
pending-download list; otherwise it sets DownloadState=Failed with the
given `meta`, persists, and enqueues the job on the callback list with
CallbackState=Pending. -/
theorem retryOrFail_retries_or_fails (j : Job) (st : Store) (meta : String)
    (hfresh : st.lookupHash j.ID = none) :
    ((j.RetryOrFail st meta).1.RetryCount =
       if j.RetryCount < maxDownloadRetries then j.RetryCount + 1
       else j.RetryCount)
  ∧ ((j.RetryOrFail st meta).1.DownloadState =
       if j.RetryCount < maxDownloadRetries then StatePending else StateFailed)
  ∧ ((j.RetryOrFail st meta).2.getHash j.ID = (j.RetryOrFail st meta).1.toMap)
  ∧ (if j.RetryCount < maxDownloadRetries then
       (j.RetryOrFail st meta).2.getList (jobKeyPrefix ++ j.AggrID) =
         st.getList (jobKeyPrefix ++ j.AggrID) ++ [j.ID]
     else
       ((j.RetryOrFail st meta).1.Meta = meta
        ∧ (j.RetryOrFail st meta).1.CallbackState = StatePending
        ∧ (j.RetryOrFail st meta).2.getList callbackQueue =
            st.getList callbackQueue ++ [j.ID])) := by
  by_cases hr : j.RetryCount < maxDownloadRetries
  · obtain ⟨h1, h2, h3⟩ :=
      queuePendingDownload_spec { j with RetryCount := j.RetryCount + 1 } st
        hfresh
    simp only [Job.RetryOrFail, hr, if_true]
    exact ⟨rfl, rfl, h2, h3⟩
  · have hsave := getHash_save_fresh
      { j with DownloadState := StateFailed
               Meta := String.intercalate "\n" [meta] } st hfresh
    obtain ⟨h1, h2, h3⟩ :=
      queuePendingCallback_spec
        { j with DownloadState := StateFailed
                 Meta := String.intercalate "\n" [meta] }
        { j with DownloadState := StateFailed
                 Meta := String.intercalate "\n" [meta] }
        (Job.Save { j with DownloadState := StateFailed
                           Meta := String.intercalate "\n" [meta] } st)
        hsave
    simp only [Job.RetryOrFail, hr, if_false]
    refine ⟨rfl, rfl, h2, rfl, rfl, ?_⟩
    exact h3.trans (by rw [getList_save])

/-- Witness for `retryOrFail_retries_or_fails`. -/
theorem retryOrFail_retries_or_fails_witness :
    emptyStore.lookupHash sampleJob.ID = none
  ∧ (((sampleJob.RetryOrFail emptyStore "boom").1.RetryCount =
       if sampleJob.RetryCount < maxDownloadRetries then
         sampleJob.RetryCount + 1
       else sampleJob.RetryCount)
  ∧ ((sampleJob.RetryOrFail emptyStore "boom").1.DownloadState =
       if sampleJob.RetryCount < maxDownloadRetries then StatePending
       else StateFailed)
  ∧ ((sampleJob.RetryOrFail emptyStore "boom").2.getHash sampleJob.ID =
       (sampleJob.RetryOrFail emptyStore "boom").1.toMap)
  ∧ (if sampleJob.RetryCount < maxDownloadRetries then
       (sampleJob.RetryOrFail emptyStore "boom").2.getList
           (jobKeyPrefix ++ sampleJob.AggrID) =
         emptyStore.getList (jobKeyPrefix ++ sampleJob.AggrID) ++ [sampleJob.ID]
     else
       ((sampleJob.RetryOrFail emptyStore "boom").1.Meta = "boom"
        ∧ (sampleJob.RetryOrFail emptyStore "boom").1.CallbackState =
            StatePending
        ∧ (sampleJob.RetryOrFail emptyStore "boom").2.getList callbackQueue =
            emptyStore.getList callbackQueue ++ [sampleJob.ID]))) :=
  ⟨rfl, retryOrFail_retries_or_fails sampleJob emptyStore "boom" rfl⟩

/-- Claim C8: the pop operations return the distinguished `QueueEmptyError`
sentinel (carrying the queue name) exactly on the empty-queue result, and
wrap any other command error as a non-sentinel error propagated to the
caller. -/
theorem pop_distinguishes_empty_from_transport (st : Store) (m : String)
    (aggr : Aggregation) :
    (st.getList callbackQueue = [] →
       (PopCallback st none).1 = .error (.queueEmpty callbackQueue))
  ∧ ((PopCallback st (some m)).1 =
       if m = redisNilMsg then .error (.queueEmpty callbackQueue)
       else .error (.other ("Could not pop from redis queue: " ++ m)))
  ∧ (st.getList aggr.RedisJobsKey = [] →
       (aggr.PopJob st none).1 = .error (.queueEmpty aggr.RedisJobsKey))
  ∧ ((aggr.PopJob st (some m)).1 =
       if m = redisNilMsg then .error (.queueEmpty aggr.RedisJobsKey)
       else .error (.other ("Could not pop from redis queue: " ++ m))) := by
  refine ⟨fun h => ?_, ?_, fun h => ?_, ?_⟩
  · simp [PopCallback, Store.lpopCmd, h]
  · by_cases hm : m = redisNilMsg
    · subst hm
      simp [PopCallback, Store.lpopCmd]
    · simp [PopCallback, Store.lpopCmd, hm]
  · simp [Aggregation.PopJob, Store.lpopCmd, h]
  · by_cases hm : m = redisNilMsg
    · subst hm
      simp [Aggregation.PopJob, Store.lpopCmd]
    · simp [Aggregation.PopJob, Store.lpopCmd, hm]

/-- Witness for `pop_distinguishes_empty_from_transport`. -/
theorem pop_distinguishes_witness :
    ((PopCallback emptyStore none).1 = .error (.queueEmpty callbackQueue))
  ∧ ((sampleAggr1.PopJob emptyStore none).1 =
      .error (.queueEmpty sampleAggr1.RedisJobsKey)) :=
  ⟨(pop_distinguishes_empty_from_transport emptyStore "boom" sampleAggr1).1
     rfl,
   (pop_distinguishes_empty_from_transport emptyStore "boom"
     sampleAggr1).2.2.1 rfl⟩

/-- Claim C9: `Aggregation.Remove` deletes only the metadata key
`aggr:<id>`; any other hash key (in particular every job record not stored
at that very key) and every `jobs:`-prefixed pending-download list are left
unchanged. -/
theorem remove_deletes_only_metadata (aggr : Aggregation) (st : Store)
    (k x : String) (hk : k ≠ aggr.RedisKey) :
    ((aggr.Remove st).lookupHash aggr.RedisKey = none)
  ∧ ((aggr.Remove st).lookupHash k = st.lookupHash k)
  ∧ ((aggr.Remove st).getList (jobKeyPrefix ++ x) =
       st.getList (jobKeyPrefix ++ x))
  ∧ ((aggr.Remove st).getList aggr.RedisJobsKey =
       st.getList aggr.RedisJobsKey) := by
  refine ⟨?_, ?_, ?_, ?_⟩
  · simp [Aggregation.Remove, Store.del, Store.lookupHash, lookupA_eraseA_self]
  · simp [Aggregation.Remove, Store.del, Store.lookupHash,
      lookupA_eraseA_ne _ _ _ hk]
  · simp [Aggregation.Remove, Store.del, Store.getList, Aggregation.RedisKey,
      lookupA_eraseA_ne _ _ _ (jobsKey_ne_aggrKey x aggr.ID)]
  · simp [Aggregation.Remove, Store.del, Store.getList, Aggregation.RedisKey,
      Aggregation.RedisJobsKey,
      lookupA_eraseA_ne _ _ _ (jobsKey_ne_aggrKey aggr.ID aggr.ID)]

/-- Witness for `remove_deletes_only_metadata`. -/
theorem remove_deletes_only_metadata_witness :
    "j1" ≠ sampleAggr1.RedisKey
  ∧ (((sampleAggr1.Remove sampleStoreW).lookupHash sampleAggr1.RedisKey = none)
  ∧ ((sampleAggr1.Remove sampleStoreW).lookupHash "j1" =
       sampleStoreW.lookupHash "j1")
  ∧ ((sampleAggr1.Remove sampleStoreW).getList (jobKeyPrefix ++ "zzz") =
       sampleStoreW.getList (jobKeyPrefix ++ "zzz"))
  ∧ ((sampleAggr1.Remove sampleStoreW).getList sampleAggr1.RedisJobsKey =
       sampleStoreW.getList sampleAggr1.RedisJobsKey)) :=
  ⟨by decide,
   remove_deletes_only_metadata sampleAggr1 sampleStoreW "j1" "zzz"
     (by decide)⟩

/-- Claim C6: `Aggregation.UnmarshalJSON` rejects every object in which
`aggr_timeout` is present and null, not a number, or a number at most 0 —
whatever the outcome of the other validations. -/
theorem unmarshal_rejects_bad_timeout (parseRequestURIok : String → Bool)
    (tmp : List (String × JVal)) (a : Aggregation) (v : JVal)
    (h1 : jlookup tmp "aggr_timeout" = some v) (h2 : badTimeoutVal v = true) :
    exceptIsError (Aggregation.unmarshalJSON parseRequestURIok tmp a) =
      true := by
  unfold Aggregation.unmarshalJSON
  rw [h1]
  cases hid : jlookup tmp "aggr_id" with
  | none => rfl
  | some idv =>
    cases idv with
    | jnull => rfl
    | jnum n => rfl
    | jother => rfl
    | jstr id =>
      dsimp only
      by_cases hide : id = ""
      · simp [hide, exceptIsError]
      · rw [if_neg hide]
        cases hlim : jlookup tmp "aggr_limit" with
        | none => rfl
        | some lv =>
          cases lv with
          | jnull => rfl
          | jstr s2 => rfl
          | jother => rfl
          | jnum limit =>
            by_cases hl : limit ≤ 0
            · simp [hl, exceptIsError]
            · cases v with
              | jnull =>
                simp [hl, exceptIsError]
                split <;> first
                | rfl
                | (rename_i heq
                   exact absurd heq (by split <;> simp))
              | jstr s3 =>
                simp [hl, exceptIsError]
                split <;> first
                | rfl
                | (rename_i heq
                   exact absurd heq (by split <;> simp))
              | jother =>
                simp [hl, exceptIsError]
                split <;> first
                | rfl
                | (rename_i heq
                   exact absurd heq (by split <;> simp))
              | jnum t =>
                have ht : t ≤ 0 := by simpa [badTimeoutVal] using h2
                simp [hl, ht, exceptIsError]
                split <;> first
                | rfl
                | (rename_i heq
                   exact absurd heq (by split <;> simp))

/-- Witness for `unmarshal_rejects_bad_timeout`. -/
theorem unmarshal_rejects_bad_timeout_witness :
    jlookup [("aggr_id", .jstr "foo"), ("aggr_limit", .jnum 4),
             ("aggr_timeout", .jnull)] "aggr_timeout" = some .jnull
  ∧ badTimeoutVal .jnull = true
  ∧ exceptIsError (Aggregation.unmarshalJSON (fun _ => true)
      [("aggr_id", .jstr "foo"), ("aggr_limit", .jnum 4),
       ("aggr_timeout", .jnull)] sampleAggr0) = true :=
  ⟨rfl, rfl,
   unmarshal_rejects_bad_timeout (fun _ => true)
     [("aggr_id", .jstr "foo"), ("aggr_limit", .jnum 4),
      ("aggr_timeout", .jnull)] sampleAggr0 .jnull rfl rfl⟩

end Downloader
